import Mathlib

/-!
Verification development for the Lightning payment-channel state machine of
this repository (`electrum.lnchan.Channel` and its helpers).

The channel implementation itself (`lnchan.py` / `lnutil.py` / `lnbase.py`)
is not among the provided source files; only its test suite
(`electrum/tests/test_lnchan.py`) and callers are.  All channel definitions
below are therefore modelled from the specification (spec.md sections 3-8),
with every ambiguity resolved in the direction pinned down by the assertions
of `test_lnchan.py`, which is part of the provided source and hence
authoritative about concrete behaviour.

Conventions of the embedding:
* machine integers become `Nat` (amounts in msat / sat never overflow the
  ranges exercised, and the Python integers are unbounded anyway);
* byte strings (payment hashes, preimages, secrets, points) become `Nat`
  with abstract injective functions standing in for SHA256 and secp256k1
  point derivation: only equality of these values is ever inspected by the
  channel logic;
* fallible operations return `Except LnError`;
* all state updates are explicit (value semantics), matching spec section 9
  ("field updates return new records").
-/

set_option maxRecDepth 10000

/-- Modelled from the spec: the two sides of a channel
(`electrum.lnutil.LOCAL` / `REMOTE`, spec section 9 "Global enums"). -/
inductive HTLCOwner where
  | LOCAL
  | REMOTE
deriving DecidableEq, Repr

/-- Modelled from the spec: payment direction (`SENT` / `RECEIVED`). -/
inductive Direction where
  | SENT
  | RECEIVED
deriving DecidableEq, Repr

def HTLCOwner.other : HTLCOwner → HTLCOwner
  | .LOCAL => .REMOTE
  | .REMOTE => .LOCAL

/-- Modelled from the spec (section 3, `UpdateAddHtlc`): one in-flight HTLC.
`payment_hash` is a `Nat` standing in for the 32-byte hash. -/
structure UpdateAddHtlc where
  payment_hash : Nat
  amount_msat : Nat
  cltv_expiry : Nat
  htlc_id : Nat
deriving DecidableEq, Repr

/-- Settlement or failure of an HTLC. -/
inductive ResKind where
  | RSettle
  | RFail
deriving DecidableEq, Repr

/-- Modelled from the spec (section 4.5): a recorded settle/fail.  `endL` /
`endR` are the first commitment numbers of the LOCAL / REMOTE commitment
from which the HTLC is no longer included ("its commitment-visibility ends
at the next ctn on both sides"). -/
structure Resolution where
  kind : ResKind
  preimage : Nat
  endL : Nat
  endR : Nat
deriving DecidableEq, Repr

def Resolution.endOf (r : Resolution) : HTLCOwner → Nat
  | .LOCAL => r.endL
  | .REMOTE => r.endR

/-- Modelled from the spec (section 4.5, HTLCManager log): one entry of the
HTLC log.  `proposer` is the side that sent the `update_add_htlc`; `startL` /
`startR` are the first commitment numbers of each side's commitment in which
the HTLC is included (`added_at_ctn`, set to `ctn+1` of the respective side
when the add is recorded, per section 4.5 and the assertions of
`test_lnchan.py` on `htlcs_by_direction` and `pending_commitment`). -/
structure HtlcEntry where
  proposer : HTLCOwner
  htlc : UpdateAddHtlc
  startL : Nat
  startR : Nat
  res : Option Resolution
deriving DecidableEq, Repr

def HtlcEntry.startOf (e : HtlcEntry) : HTLCOwner → Nat
  | .LOCAL => e.startL
  | .REMOTE => e.startR

/-- Modelled from the spec (section 4.6 `update_fee` and scenario S4): a
queued feerate change.  A fee update sent by the initiator applies to the
counterparty's commitment from `startR`/`startL` of the respective side; the
side on which the start is still `none` has not yet locked it in (it is
filled in when the corresponding revocation is processed, matching
`test_UpdateFeeSenderCommits` / `test_UpdateFeeReceiverCommits`). -/
structure FeeUpdate where
  rate : Nat
  startL : Option Nat
  startR : Option Nat
deriving DecidableEq, Repr

def FeeUpdate.startOf (u : FeeUpdate) : HTLCOwner → Option Nat
  | .LOCAL => u.startL
  | .REMOTE => u.startR

/-- Modelled from the spec (section 3, `ChannelConfig`): the per-side
configuration.  `ctn` is the current commitment number of this side's
commitment transaction; `reserve_sat` stored in side `s`'s config is the
reserve requirement applying to the opposite side (as set up by
`TestChanReserve.setUp`: "bob min reserve was decided by alice, but applies
to bob"). -/
structure ChannelConfig where
  to_self_delay : Nat
  dust_limit_sat : Nat
  max_htlc_value_in_flight_msat : Nat
  max_accepted_htlcs : Nat
  initial_msat : Nat
  reserve_sat : Nat
  ctn : Nat
  next_htlc_id : Nat
deriving DecidableEq, Repr

/-- Output kinds of a commitment transaction, expressed relative to the
commitment's owner (spec section 4.3). -/
inductive OutputKind where
  | toLocalDelayed
  | toRemote
  | htlcOffered (payment_hash : Nat)
  | htlcReceived (payment_hash : Nat) (cltv : Nat)
deriving DecidableEq, Repr

/-- One commitment-transaction output, value in satoshis. -/
structure TxOutput where
  kind : OutputKind
  value : Nat
deriving DecidableEq, Repr

/-- Modelled from the spec (section 4.6, commitment-tx construction): a
commitment transaction: its commitment number, the feerate it was built at,
and its outputs. -/
structure CommitTx where
  ctn : Nat
  feerate : Nat
  outputs : List TxOutput
deriving DecidableEq, Repr

/-- Modelled from the spec (section 4.6 `revoke_current_commitment`):
the revoke_and_ack message. -/
structure RevokeAndAck where
  per_commitment_secret : Nat
  next_per_commitment_point : Nat
deriving DecidableEq, Repr

/-- Error kinds (spec section 7). -/
inductive LnError where
  | PaymentFailure
  | RemoteMisbehaving
  | HashMismatch
  | StateError
  | BadSignature
  | BadRevocationSecret
deriving DecidableEq, Repr

/-- Modelled from the spec (section 3, Channel aggregate): the whole channel
state.  `htlcSignatures`/`commitSignature` model the stored signatures as the
transactions they sign; `localCommitment` is the stored broadcastable local
commitment (`set_local_commitment` in the tests, used by `force_close_tx`);
`constraintsFeerate` is `constraints.feerate`, the currently committed
feerate; `feerateBase` the feerate at channel creation. -/
structure Channel where
  capacity_sat : Nat
  is_initiator : Bool
  feerateBase : Nat
  constraintsFeerate : Nat
  configL : ChannelConfig
  configR : ChannelConfig
  htlcLog : List HtlcEntry
  feeUpdates : List FeeUpdate
  got_sig_for_next : Bool
  commitSignature : Option CommitTx
  htlcSignatures : List TxOutput
  seed : Nat
  remoteCurrentPoint : Nat
  remoteNextPoint : Nat
  revocationStore : List (Nat × Nat)
  localCommitment : CommitTx
deriving DecidableEq, Repr

def Channel.configOf (ch : Channel) : HTLCOwner → ChannelConfig
  | .LOCAL => ch.configL
  | .REMOTE => ch.configR

def Channel.ctnOf (ch : Channel) (s : HTLCOwner) : Nat :=
  (ch.configOf s).ctn

/-- Abstract injective stand-in for SHA256 of a preimage (only equality with
a stored payment hash is inspected by the channel logic). -/
def sha256Nat (preimage : Nat) : Nat :=
  2 * preimage + 1

/-- Modelled from the spec (section 4.1): `START_INDEX` of the revocation
secret tree. -/
def START_INDEX : Nat := 2 ^ 48 - 1

/-- Modelled from the spec (sections 4.1/4.2,
`get_per_commitment_secret_from_seed`): abstract injective derivation of the
per-commitment secret at an index from the 32-byte seed. -/
def perCommitmentSecret (seed idx : Nat) : Nat :=
  seed * 2 ^ 49 + idx

/-- Modelled from the spec (section 4.2, `secret_to_pubkey`): abstract
injective scalar-to-point map. -/
def pointOfSecret (secret : Nat) : Nat :=
  secret + 2 ^ 120

/-- Per-commitment point of a side's commitment number `n`
(secret index `START_INDEX - n`). -/
def pointAt (seed n : Nat) : Nat :=
  pointOfSecret (perCommitmentSecret seed (START_INDEX - n))

/-- BOLT-03 weight constants (spec section 4.4 and `lnutil`). -/
def HTLC_TIMEOUT_WEIGHT : Nat := 663

def HTLC_SUCCESS_WEIGHT : Nat := 703

/-- Modelled from the spec (section 4.4): commitment weight from the number
of non-dust HTLCs. -/
def commitmentWeight (numNondustHtlcs : Nat) : Nat :=
  724 + 172 * numNondustHtlcs

/-- Modelled from the spec (section 4.4): commitment fee in satoshis. -/
def commitmentFee (feerate numNondustHtlcs : Nat) : Nat :=
  feerate * commitmentWeight numNondustHtlcs / 1000

/-- The feerate of side `owner`'s commitment number `n`: the last queued fee
update whose start on that side is known and at most `n`, defaulting to the
creation feerate. -/
def feerateAt (ch : Channel) (owner : HTLCOwner) (n : Nat) : Nat :=
  ch.feeUpdates.foldl
    (fun acc u =>
      match u.startOf owner with
      | some k => if k ≤ n then u.rate else acc
      | none => acc)
    ch.feerateBase

/-- Modelled from the spec (section 4.6 `update_fee` row and S4):
`pending_feerate(s)` is the feerate of side `s`'s next commitment. -/
def pending_feerate (ch : Channel) (s : HTLCOwner) : Nat :=
  feerateAt ch s (ch.ctnOf s + 1)

/-- Whether HTLC log entry `e` is included in side `owner`'s commitment
number `n` (spec I7 and section 4.5 `htlcs_by_direction`): added at or
before `n` on that side, and not settled/failed effective at or before `n`
on that side. -/
def inclAt (owner : HTLCOwner) (n : Nat) (e : HtlcEntry) : Bool :=
  e.startOf owner ≤ n &&
    (match e.res with
     | some r => n < r.endOf owner
     | none => true)

/-- The HTLC log entries included in side `owner`'s commitment number `n`. -/
def includedEntries (ch : Channel) (owner : HTLCOwner) (n : Nat) : List HtlcEntry :=
  ch.htlcLog.filter (inclAt owner n)

/-- Sum of the amounts of a list of log entries. -/
def htlcsum (l : List HtlcEntry) : Nat :=
  (l.map (fun e => e.htlc.amount_msat)).sum

/-- Modelled from the spec (section 4.4): the second-stage weight used for
the dust threshold of an HTLC output in `owner`'s commitment: timeout weight
for HTLCs offered by `owner`, success weight for HTLCs received. -/
def htlcDustWeight (owner : HTLCOwner) (e : HtlcEntry) : Nat :=
  if e.proposer = owner then HTLC_TIMEOUT_WEIGHT else HTLC_SUCCESS_WEIGHT

/-- Modelled from the spec (section 4.4): an HTLC is non-dust in `owner`'s
commitment at feerate `rate` iff
`amount_msat/1000 ≥ dust_limit + weight * feerate / 1000`. -/
def isNondustHtlc (ch : Channel) (owner : HTLCOwner) (rate : Nat) (e : HtlcEntry) : Bool :=
  (ch.configOf owner).dust_limit_sat + htlcDustWeight owner e * rate / 1000
    ≤ e.htlc.amount_msat / 1000

/-- A settle recorded for entry `e` that is effective in `owner`'s
commitment number `n`. -/
def settledAt (owner : HTLCOwner) (n : Nat) (e : HtlcEntry) : Bool :=
  match e.res with
  | some r => r.kind = ResKind.RSettle && r.endOf owner ≤ n
  | none => false

/-- Sum of the amounts of HTLCs sent by `p` whose settle is effective in
`owner`'s commitment number `n`. -/
def settledSent (ch : Channel) (owner : HTLCOwner) (n : Nat) (p : HTLCOwner) : Nat :=
  htlcsum (ch.htlcLog.filter (fun e => settledAt owner n e && e.proposer = p))

/-- Modelled from the spec (section 4.6 step 2): the msat credited to party
`p` in `owner`'s commitment number `n` before subtracting in-flight HTLCs
and the fee: `initial_msat` plus settled HTLCs received by `p` (i.e. sent
by the other side), minus settled HTLCs sent by `p` (a settle is effective
per the `owner` side's removal ctn). -/
def balInCtx (ch : Channel) (owner : HTLCOwner) (n : Nat) (p : HTLCOwner) : Nat :=
  (ch.configOf p).initial_msat
    + settledSent ch owner n p.other
    - settledSent ch owner n p

/-- The side that pays the commitment fee: the channel initiator
(spec section 4.6 step 3). -/
def Channel.feePayer (ch : Channel) : HTLCOwner :=
  if ch.is_initiator then .LOCAL else .REMOTE

/-- Sum of the amounts of the HTLCs sent by `p` that are included
(in flight) in `owner`'s commitment number `n`. -/
def pendingSent (ch : Channel) (owner : HTLCOwner) (n : Nat) (p : HTLCOwner) : Nat :=
  htlcsum ((includedEntries ch owner n).filter (fun e => e.proposer = p))

/-- Modelled from the spec (section 4.6 step 2-3): party `p`'s output value
in msat in `owner`'s commitment number `n`: balance minus pending HTLCs `p`
is sending minus the fee if `p` is the initiator. -/
def toMsat (ch : Channel) (owner : HTLCOwner) (n : Nat) (fee : Nat) (p : HTLCOwner) : Nat :=
  balInCtx ch owner n p
    - pendingSent ch owner n p
    - (if p = ch.feePayer then fee * 1000 else 0)

/-- The HTLC output for entry `e` in `owner`'s commitment (spec section 4.3:
offered HTLC script if `owner` sent it, received HTLC script otherwise). -/
def htlcOutput (owner : HTLCOwner) (e : HtlcEntry) : TxOutput :=
  if e.proposer = owner then
    { kind := OutputKind.htlcOffered e.htlc.payment_hash, value := e.htlc.amount_msat / 1000 }
  else
    { kind := OutputKind.htlcReceived e.htlc.payment_hash e.htlc.cltv_expiry,
      value := e.htlc.amount_msat / 1000 }

/-- Deterministic sort key standing in for BIP69 ordering (amount ascending,
then script, ties among HTLCs by CLTV; spec section 4.6 step 6). -/
def outputKey (o : TxOutput) : Nat × Nat × Nat :=
  match o.kind with
  | .toLocalDelayed => (o.value, 0, 0)
  | .toRemote => (o.value, 1, 0)
  | .htlcOffered h => (o.value, 2 + 4 * h, 0)
  | .htlcReceived h cltv => (o.value, 3 + 4 * h, cltv)

def keyLe (a b : Nat × Nat × Nat) : Bool :=
  decide (a.1 < b.1) ||
    (a.1 = b.1 && (decide (a.2.1 < b.2.1) ||
      (a.2.1 = b.2.1 && decide (a.2.2 ≤ b.2.2))))

def insertSorted (o : TxOutput) : List TxOutput → List TxOutput
  | [] => [o]
  | x :: xs =>
      if keyLe (outputKey o) (outputKey x) then o :: x :: xs
      else x :: insertSorted o xs

/-- Canonical (BIP69-style) output ordering. -/
def sortOutputs (l : List TxOutput) : List TxOutput :=
  l.foldr insertSorted []

/-- The non-dust HTLC entries of `owner`'s commitment number `n`. -/
def ctxNondust (ch : Channel) (owner : HTLCOwner) (n : Nat) : List HtlcEntry :=
  (includedEntries ch owner n).filter (isNondustHtlc ch owner (feerateAt ch owner n))

/-- The dust HTLC entries of `owner`'s commitment number `n` (omitted from
the transaction; their value goes to the fee). -/
def ctxDustHtlcs (ch : Channel) (owner : HTLCOwner) (n : Nat) : List HtlcEntry :=
  (includedEntries ch owner n).filter
    (fun e => !isNondustHtlc ch owner (feerateAt ch owner n) e)

/-- The commitment fee of `owner`'s commitment number `n` (spec section
4.4). -/
def ctxFee (ch : Channel) (owner : HTLCOwner) (n : Nat) : Nat :=
  commitmentFee (feerateAt ch owner n) (ctxNondust ch owner n).length

/-- The owner-side output value (sat) of `owner`'s commitment number `n`. -/
def toLocalSat (ch : Channel) (owner : HTLCOwner) (n : Nat) : Nat :=
  toMsat ch owner n (ctxFee ch owner n) owner / 1000

/-- The counterparty output value (sat) of `owner`'s commitment number `n`. -/
def toRemoteSat (ch : Channel) (owner : HTLCOwner) (n : Nat) : Nat :=
  toMsat ch owner n (ctxFee ch owner n) owner.other / 1000

/-- Modelled from the spec (section 4.6, commitment-tx construction): side
`owner`'s commitment transaction number `n`.  Outputs below the owner's
`dust_limit_sat` are omitted (spec section 4.3 dust rule). -/
def ctxFor (ch : Channel) (owner : HTLCOwner) (n : Nat) : CommitTx :=
  let dust := (ch.configOf owner).dust_limit_sat
  let toLocalVal := toLocalSat ch owner n
  let toRemoteVal := toRemoteSat ch owner n
  let base :=
    (if dust ≤ toLocalVal then [{ kind := OutputKind.toLocalDelayed, value := toLocalVal }] else [])
      ++ (if dust ≤ toRemoteVal then [{ kind := OutputKind.toRemote, value := toRemoteVal }] else [])
      ++ (ctxNondust ch owner n).map (htlcOutput owner)
  { ctn := n, feerate := feerateAt ch owner n, outputs := sortOutputs base }

/-- `current_commitment(s)`: side `s`'s commitment at its current ctn. -/
def current_commitment (ch : Channel) (s : HTLCOwner) : CommitTx :=
  ctxFor ch s (ch.ctnOf s)

/-- `pending_commitment(s)`: side `s`'s commitment at its next ctn. -/
def pending_commitment (ch : Channel) (s : HTLCOwner) : CommitTx :=
  ctxFor ch s (ch.ctnOf s + 1)

/-- Modelled from the spec (sections 4.6/4.7 `force_close_tx`): the stored
broadcastable local commitment (updated when a new commitment signature is
received, cf. `set_local_commitment` in `test_lnchan.py`). -/
def force_close_tx (ch : Channel) : CommitTx :=
  ch.localCommitment

/-- `pending_local_fee`: capacity minus the sum of the pending local
commitment's outputs (how `test_lnchan.py` measures the commitment fee). -/
def pending_local_fee (ch : Channel) : Nat :=
  ch.capacity_sat - ((pending_commitment ch .LOCAL).outputs.map (fun o => o.value)).sum

/-- A recorded resolution is fully locked in once it is effective in both
sides' current commitments (a full commitment round has acked it). -/
def resLockedIn (ch : Channel) (e : HtlcEntry) : Bool :=
  match e.res with
  | some r => r.endL ≤ ch.ctnOf .LOCAL && r.endR ≤ ch.ctnOf .REMOTE
  | none => false

/-- An HTLC is fully settled when its settle is locked in on both sides. -/
def fullySettled (ch : Channel) (e : HtlcEntry) : Bool :=
  match e.res with
  | some r => r.kind = ResKind.RSettle && r.endL ≤ ch.ctnOf .LOCAL && r.endR ≤ ch.ctnOf .REMOTE
  | none => false

/-- Sum of the amounts of the fully settled HTLCs sent by `p`. -/
def lockedSettledSent (ch : Channel) (p : HTLCOwner) : Nat :=
  htlcsum (ch.htlcLog.filter (fun e => fullySettled ch e && e.proposer = p))

/-- Modelled from the spec (section 4.6 `balance`): `initial_msat` plus
fully settled HTLCs received by `p` minus fully settled HTLCs sent by `p`
(`test_lnchan.py` pins that an in-flight or not-yet-acked settle does not
move `balance`: line 431 vs 463). -/
def balance (ch : Channel) (p : HTLCOwner) : Nat :=
  (ch.configOf p).initial_msat
    + lockedSettledSent ch p.other
    - lockedSettledSent ch p

/-- The HTLCs side `p` is sending that are still in flight: adds by `p`
whose resolution (if any) is not yet locked in on both sides. -/
def inFlightSentBy (ch : Channel) (p : HTLCOwner) : List HtlcEntry :=
  ch.htlcLog.filter (fun e => e.proposer = p && !resLockedIn ch e)

/-- Modelled from the spec (section 4.6 `balance_minus_outgoing_htlcs`). -/
def balance_minus_outgoing_htlcs (ch : Channel) (p : HTLCOwner) : Nat :=
  balance ch p - htlcsum (inFlightSentBy ch p)

/-- Modelled from the spec (S1 assertions, `total_msat`): total msat fully
transferred in `dir` from LOCAL's point of view. -/
def total_msat (ch : Channel) (dir : Direction) : Nat :=
  lockedSettledSent ch (match dir with | .SENT => .LOCAL | .RECEIVED => .REMOTE)

/-- The reserve requirement applying to side `p` (stored in the opposite
side's config, cf. `TestChanReserve.setUp`). -/
def reserveFor (ch : Channel) (p : HTLCOwner) : Nat :=
  (ch.configOf p.other).reserve_sat

/-- Modelled from the spec (section 4.6 `add_htlc`/`receive_htlc`,
invariants I2-I5): whether side `sender` can add a new HTLC of `amount_msat`
with `cltv_expiry`.  The balance check (I5) is against the sender's balance
minus its in-flight HTLCs minus the commitment fee when the sender is the
initiator, compared with the sender's reserve (`TestAvailableToSpend` /
`TestChanReserve` pin that a not-yet-acked fail does not free the balance
and that only the sender's reserve is checked). -/
def canAddHtlc (ch : Channel) (sender : HTLCOwner) (amount_msat cltv_expiry : Nat) : Bool :=
  let inflight := inFlightSentBy ch sender
  let maxAccepted := min ch.configL.max_accepted_htlcs ch.configR.max_accepted_htlcs
  let maxInFlight := min ch.configL.max_htlc_value_in_flight_msat
      ch.configR.max_htlc_value_in_flight_msat
  let rate := pending_feerate ch sender
  let feeTerm :=
    if sender = ch.feePayer then commitmentFee rate (inflight.length + 1) * 1000 else 0
  0 < amount_msat && 0 < cltv_expiry
    && inflight.length + 1 ≤ maxAccepted
    && htlcsum inflight + amount_msat ≤ maxInFlight
    && htlcsum inflight + amount_msat + feeTerm + reserveFor ch sender * 1000
        ≤ balance ch sender

/-- The raw log append for an add by `sender`: assigns the next htlc id of
that side's config and records inclusion from each side's next ctn (spec
section 4.5 `add`). -/
def recordAdd (ch : Channel) (sender : HTLCOwner) (payment_hash amount_msat cltv_expiry : Nat) :
    Nat × Channel :=
  let htlc_id := (ch.configOf sender).next_htlc_id
  let entry : HtlcEntry :=
    { proposer := sender
      htlc := { payment_hash := payment_hash, amount_msat := amount_msat,
                cltv_expiry := cltv_expiry, htlc_id := htlc_id }
      startL := ch.ctnOf .LOCAL + 1
      startR := ch.ctnOf .REMOTE + 1
      res := none }
  let ch2 :=
    match sender with
    | .LOCAL => { ch with htlcLog := ch.htlcLog ++ [entry],
                          configL := { ch.configL with next_htlc_id := htlc_id + 1 } }
    | .REMOTE => { ch with htlcLog := ch.htlcLog ++ [entry],
                           configR := { ch.configR with next_htlc_id := htlc_id + 1 } }
  (htlc_id, ch2)

/-- Modelled from the spec (section 4.6 `add_htlc`): allocate the htlc id,
append to the local adds, check I2-I5; `PaymentFailure` otherwise. -/
def add_htlc (ch : Channel) (payment_hash amount_msat cltv_expiry : Nat) :
    Except LnError (Nat × Channel) :=
  if canAddHtlc ch .LOCAL amount_msat cltv_expiry then
    Except.ok (recordAdd ch .LOCAL payment_hash amount_msat cltv_expiry)
  else
    Except.error LnError.PaymentFailure

/-- Modelled from the spec (section 4.6 `receive_htlc`): mirror of
`add_htlc` into the remote adds; `RemoteMisbehaving` on violation. -/
def receive_htlc (ch : Channel) (payment_hash amount_msat cltv_expiry : Nat) :
    Except LnError (Nat × Channel) :=
  if canAddHtlc ch .REMOTE amount_msat cltv_expiry then
    Except.ok (recordAdd ch .REMOTE payment_hash amount_msat cltv_expiry)
  else
    Except.error LnError.RemoteMisbehaving

/-- An unresolved add by `proposer` with this id exists. -/
def hasOpenHtlc (ch : Channel) (proposer : HTLCOwner) (htlc_id : Nat) : Bool :=
  ch.htlcLog.any (fun e =>
    e.proposer = proposer && e.htlc.htlc_id = htlc_id && e.res.isNone)

/-- Record a resolution (settle/fail) of the open add by `proposer` with
this id; effective from each side's next ctn (spec section 4.5). -/
def recordRes (ch : Channel) (proposer : HTLCOwner) (htlc_id : Nat)
    (kind : ResKind) (preimage : Nat) : Channel :=
  let r : Resolution :=
    { kind := kind, preimage := preimage,
      endL := ch.ctnOf .LOCAL + 1, endR := ch.ctnOf .REMOTE + 1 }
  { ch with htlcLog := ch.htlcLog.map (fun e =>
      if e.proposer = proposer && e.htlc.htlc_id = htlc_id && e.res.isNone then
        { e with res := some r }
      else e) }

/-- Whether `preimage` matches the payment hash of the open add by
`proposer` with this id. -/
def preimageMatches (ch : Channel) (proposer : HTLCOwner) (htlc_id preimage : Nat) : Bool :=
  ch.htlcLog.any (fun e =>
    e.proposer = proposer && e.htlc.htlc_id = htlc_id && e.res.isNone
      && e.htlc.payment_hash = sha256Nat preimage)

/-- Modelled from the spec (section 4.6 `settle_htlc`): record our
settlement of an HTLC the peer offered; requires
`sha256(preimage) == payment_hash`. -/
def settle_htlc (ch : Channel) (preimage htlc_id : Nat) : Except LnError Channel :=
  if preimageMatches ch .REMOTE htlc_id preimage then
    Except.ok (recordRes ch .REMOTE htlc_id ResKind.RSettle preimage)
  else
    Except.error LnError.HashMismatch

/-- Modelled from the spec (section 4.6 `receive_htlc_settle`): mirror. -/
def receive_htlc_settle (ch : Channel) (preimage htlc_id : Nat) : Except LnError Channel :=
  if preimageMatches ch .LOCAL htlc_id preimage then
    Except.ok (recordRes ch .LOCAL htlc_id ResKind.RSettle preimage)
  else
    Except.error LnError.HashMismatch

/-- Modelled from the spec (section 4.6 `fail_htlc`). -/
def fail_htlc (ch : Channel) (htlc_id : Nat) : Except LnError Channel :=
  if hasOpenHtlc ch .REMOTE htlc_id then
    Except.ok (recordRes ch .REMOTE htlc_id ResKind.RFail 0)
  else
    Except.error LnError.StateError

/-- Modelled from the spec (section 4.6 `receive_fail_htlc`). -/
def receive_fail_htlc (ch : Channel) (htlc_id : Nat) : Except LnError Channel :=
  if hasOpenHtlc ch .LOCAL htlc_id then
    Except.ok (recordRes ch .LOCAL htlc_id ResKind.RFail 0)
  else
    Except.error LnError.StateError

/-- Modelled from the spec (section 4.6 `update_fee` and S4): queue a
feerate change.  Sent by us (`ours = true`, only the initiator may send):
it reaches the remote commitment at its next ctn, our own side locks it in
when the peer's revocation arrives.  Received (`ours = false`, only a
non-initiator accepts): it reaches our commitment at our next ctn, the
remote side locks it in when we revoke. -/
def update_fee (ch : Channel) (rate : Nat) (ours : Bool) : Except LnError Channel :=
  if ours then
    if ch.is_initiator then
      Except.ok { ch with feeUpdates := ch.feeUpdates ++
        [{ rate := rate, startL := none, startR := some (ch.ctnOf .REMOTE + 1) }] }
    else Except.error LnError.StateError
  else
    if ch.is_initiator then Except.error LnError.StateError
    else
      Except.ok { ch with feeUpdates := ch.feeUpdates ++
        [{ rate := rate, startL := some (ch.ctnOf .LOCAL + 1), startR := none }] }

/-- Sum of the amounts of settled HTLCs proposed by `p` whose removal from
side `owner`'s commitment becomes effective exactly at ctn `n` (the HTLCs
that "fully locked in during this step" when that side advances to `n`). -/
def settledInCtn (ch : Channel) (owner : HTLCOwner) (n : Nat) (p : HTLCOwner) : Nat :=
  htlcsum (ch.htlcLog.filter (fun e =>
    e.proposer = p &&
      (match e.res with
       | some r => r.kind = ResKind.RSettle && r.endOf owner = n
       | none => false)))

/-- The HTLC outputs of a commitment transaction, in output order (the
transactions whose second-stage signatures accompany `commitment_signed`). -/
def htlcOutputsOf (tx : CommitTx) : List TxOutput :=
  tx.outputs.filter (fun o =>
    match o.kind with
    | .htlcOffered _ => true
    | .htlcReceived _ _ => true
    | _ => false)

/-- Modelled from the spec (section 4.6 `sign_next_commitment`): build the
remote's next commitment (ctn M+1) and produce the commitment signature and
the HTLC signatures, in output order.  Signatures are modelled as the
transactions they sign.  The spec's operation table says this "marks
got_sig_for_next=false on remote side", but per the data model (section 3)
only the LOCAL config carries `got_sig_for_next`, so no persistent state
changes (property P3 and `test_sign_commitment_is_pure`). -/
def sign_next_commitment (ch : Channel) : (CommitTx × List TxOutput) × Channel :=
  let tx := ctxFor ch .REMOTE (ch.ctnOf .REMOTE + 1)
  ((tx, htlcOutputsOf tx), ch)

/-- Modelled from the spec (section 4.6 `receive_new_commitment`): verify
the peer's signature against our next local commitment and each HTLC
signature in output order, store them, set `got_sig_for_next`, and store
the newly signed local commitment (the broadcastable one used by
`force_close_tx`). -/
def receive_new_commitment (ch : Channel) (sig : CommitTx) (htlcSigs : List TxOutput) :
    Except LnError Channel :=
  let expected := ctxFor ch .LOCAL (ch.ctnOf .LOCAL + 1)
  if sig = expected && htlcSigs = htlcOutputsOf expected then
    Except.ok { ch with got_sig_for_next := true, commitSignature := some sig,
                        htlcSignatures := htlcSigs, localCommitment := expected }
  else
    Except.error LnError.BadSignature

/-- Fill the not-yet-locked-in side of queued fee updates with ctn `n`. -/
def lockFeeUpdates (l : List FeeUpdate) (owner : HTLCOwner) (n : Nat) : List FeeUpdate :=
  l.map (fun u =>
    match owner, u.startL, u.startR with
    | .LOCAL, none, _ => { u with startL := some n }
    | .REMOTE, _, none => { u with startR := some n }
    | _, _, _ => u)

/-- Modelled from the spec (section 4.6 `revoke_current_commitment`):
requires `got_sig_for_next`; reveals the per-commitment secret at index
`START_INDEX - LOCAL.ctn`, advances LOCAL.ctn, locks in pending received
fee updates on the remote side, refreshes `constraints.feerate` to the
newly current local commitment's feerate, and returns the RevokeAndAck plus
the `(received_msat, sent_msat)` that fully locked in during this step. -/
def revoke_current_commitment (ch : Channel) :
    Except LnError ((RevokeAndAck × (Nat × Nat)) × Channel) :=
  if ch.got_sig_for_next then
    let n := ch.ctnOf .LOCAL
    let rev : RevokeAndAck :=
      { per_commitment_secret := perCommitmentSecret ch.seed (START_INDEX - n)
        next_per_commitment_point := pointAt ch.seed (n + 2) }
    let fees2 := lockFeeUpdates ch.feeUpdates .REMOTE (ch.ctnOf .REMOTE + 1)
    let ch2 : Channel :=
      { ch with configL := { ch.configL with ctn := n + 1 }
                got_sig_for_next := false
                feeUpdates := fees2 }
    let ch3 := { ch2 with constraintsFeerate := feerateAt ch2 .LOCAL (n + 1) }
    Except.ok ((rev, (settledInCtn ch .LOCAL (n + 1) .REMOTE,
                      settledInCtn ch .LOCAL (n + 1) .LOCAL)), ch3)
  else
    Except.error LnError.StateError

/-- Modelled from the spec (section 4.6 `receive_revocation`): verify the
revealed secret against REMOTE's current per-commitment point, insert it in
the revocation store, rotate the points, advance REMOTE.ctn, lock in
pending sent fee updates on our side, and report the
`(received_msat, sent_msat)` that fully locked in during this step. -/
def receive_revocation (ch : Channel) (rev : RevokeAndAck) :
    Except LnError ((Nat × Nat) × Channel) :=
  if pointOfSecret rev.per_commitment_secret = ch.remoteCurrentPoint then
    let n := ch.ctnOf .REMOTE
    let ch2 : Channel :=
      { ch with configR := { ch.configR with ctn := n + 1 }
                feeUpdates := lockFeeUpdates ch.feeUpdates .LOCAL (ch.ctnOf .LOCAL + 1)
                revocationStore :=
                  ch.revocationStore ++ [(START_INDEX - n, rev.per_commitment_secret)]
                remoteCurrentPoint := ch.remoteNextPoint
                remoteNextPoint := rev.next_per_commitment_point }
    Except.ok ((settledInCtn ch .REMOTE (n + 1) .REMOTE,
                settledInCtn ch .REMOTE (n + 1) .LOCAL), ch2)
  else
    Except.error LnError.BadRevocationSecret

/-- Modelled from the spec (section 6, persistence format): the persistent
record of the channel (`Channel.to_save` / `serialize` in the tests).  Every
persistent field of the model appears. -/
def to_save (ch : Channel) :=
  (ch.capacity_sat, ch.is_initiator, ch.feerateBase, ch.constraintsFeerate,
   ch.configL, ch.configR, ch.htlcLog, ch.feeUpdates, ch.got_sig_for_next,
   ch.commitSignature, ch.htlcSignatures, ch.seed, ch.remoteCurrentPoint,
   ch.remoteNextPoint, ch.revocationStore, ch.localCommitment)

def one_bitcoin_in_msat : Nat := 100000000 * 1000

/-- Parameters of a mirrored test channel pair (cf. `create_test_channels`
and `create_channel_state` in `test_lnchan.py`).  `amtA`/`amtB` are the
initial msat of Alice / Bob; `dustA`/`dustB` their dust limits;
`reserveA`/`reserveB` the reserve (sat) applying to Alice / Bob. -/
structure ChanParams where
  feerate : Nat
  amtA : Nat
  amtB : Nat
  dustA : Nat
  dustB : Nat
  reserveA : Nat
  reserveB : Nat
  csvA : Nat
  csvB : Nat
  maxAccepted : Nat
  maxInFlight : Nat

/-- The standard parameters of `create_test_channels()`: 10 BTC capacity,
50/50 split, feerate 6000 sat/kw, dust 200/1300, csv 5/4. -/
def defaultParams : ChanParams :=
  { feerate := 6000
    amtA := 5 * one_bitcoin_in_msat
    amtB := 5 * one_bitcoin_in_msat
    dustA := 200
    dustB := 1300
    reserveA := 0
    reserveB := 0
    csvA := 5
    csvB := 4
    maxAccepted := 5
    maxInFlight := 5 * one_bitcoin_in_msat }

def mkConfig (p : ChanParams) (dust csv reserveOfOther initial : Nat) : ChannelConfig :=
  { to_self_delay := csv
    dust_limit_sat := dust
    max_htlc_value_in_flight_msat := p.maxInFlight
    max_accepted_htlcs := p.maxAccepted
    initial_msat := initial
    reserve_sat := reserveOfOther
    ctn := 0
    next_htlc_id := 0 }

def aliceSeed : Nat := 1

def bobSeed : Nat := 2

/-- Modelled from the spec (`create_test_channels`): Alice's channel object
(the initiator).  Both sides stand at ctn 0 with the initial commitments
exchanged and signed, nothing revoked yet. -/
def mkChanA (p : ChanParams) : Channel :=
  let base : Channel :=
    { capacity_sat := (p.amtA + p.amtB) / 1000
      is_initiator := true
      feerateBase := p.feerate
      constraintsFeerate := p.feerate
      configL := mkConfig p p.dustA p.csvA p.reserveB p.amtA
      configR := mkConfig p p.dustB p.csvB p.reserveA p.amtB
      htlcLog := []
      feeUpdates := []
      got_sig_for_next := false
      commitSignature := none
      htlcSignatures := []
      seed := aliceSeed
      remoteCurrentPoint := pointAt bobSeed 0
      remoteNextPoint := pointAt bobSeed 1
      revocationStore := []
      localCommitment := { ctn := 0, feerate := p.feerate, outputs := [] } }
  { base with commitSignature := some (ctxFor base .LOCAL 0)
              localCommitment := ctxFor base .LOCAL 0 }

/-- Modelled from the spec (`create_test_channels`): Bob's channel object,
the mirror image of Alice's. -/
def mkChanB (p : ChanParams) : Channel :=
  let base : Channel :=
    { capacity_sat := (p.amtA + p.amtB) / 1000
      is_initiator := false
      feerateBase := p.feerate
      constraintsFeerate := p.feerate
      configL := mkConfig p p.dustB p.csvB p.reserveA p.amtB
      configR := mkConfig p p.dustA p.csvA p.reserveB p.amtA
      htlcLog := []
      feeUpdates := []
      got_sig_for_next := false
      commitSignature := none
      htlcSignatures := []
      seed := bobSeed
      remoteCurrentPoint := pointAt aliceSeed 0
      remoteNextPoint := pointAt aliceSeed 1
      revocationStore := []
      localCommitment := { ctn := 0, feerate := p.feerate, outputs := [] } }
  { base with commitSignature := some (ctxFor base .LOCAL 0)
              localCommitment := ctxFor base .LOCAL 0 }

/-- A sends `commitment_signed`, B processes it. -/
def stepSignAB (a b : Channel) : Except LnError (Channel × Channel) := do
  let (sig, a2) := sign_next_commitment a
  let b2 ← receive_new_commitment b sig.1 sig.2
  pure (a2, b2)

/-- A revokes its current commitment, B processes the revocation. -/
def stepRevokeAB (a b : Channel) : Except LnError (Channel × Channel) := do
  let (r, a2) ← revoke_current_commitment a
  let (_, b2) ← receive_revocation b r.1
  pure (a2, b2)

/-- Modelled from `force_state_transition` in `test_lnchan.py`: one full
commitment round initiated by `a`. -/
def force_state_transition (a b : Channel) : Except LnError (Channel × Channel) := do
  let (sigA, a1) := sign_next_commitment a
  let b1 ← receive_new_commitment b sigA.1 sigA.2
  let (revB, b2) ← revoke_current_commitment b1
  let (sigB, b3) := sign_next_commitment b2
  let (_, a2) ← receive_revocation a1 revB.1
  let a3 ← receive_new_commitment a2 sigB.1 sigB.2
  let (revA, a4) ← revoke_current_commitment a3
  let (_, b4) ← receive_revocation b3 revA.1
  pure (a4, b4)

instance {E A : Type} [DecidableEq E] [DecidableEq A] : DecidableEq (Except E A) := fun x y =>
  match x, y with
  | .ok a, .ok b =>
      if h : a = b then isTrue (by rw [h]) else isFalse (fun hh => h (Except.ok.inj hh))
  | .error e, .error f =>
      if h : e = f then isTrue (by rw [h]) else isFalse (fun hh => h (Except.error.inj hh))
  | .ok _, .error _ => isFalse (fun hh => Except.noConfusion hh)
  | .error _, .ok _ => isFalse (fun hh => Except.noConfusion hh)

/-! ## Concrete scenarios of `test_lnchan.py` (spec section 8)

Staged executions of the test scenarios.  `okPair` extracts the state pair
from a successful step (the scenario theorems assert success explicitly via
`Except.isOk` or `Except.map ... = Except.ok ...`). -/

def okPair (x : Except LnError (Channel × Channel)) : Channel × Channel :=
  match x with
  | .ok p => p
  | .error _ => (mkChanA defaultParams, mkChanB defaultParams)

def okChan (x : Except LnError Channel) : Channel :=
  match x with
  | .ok c => c
  | .error _ => mkChanA defaultParams

/-- The payment hash of `TestChannel.setUp` (`sha256(b"\x01"*32)`); the
preimage is modelled as `1`. -/
def paymentHash1 : Nat := sha256Nat 1

/-- S1, stage 1: Alice adds the 1-BTC HTLC, Bob receives it
(`TestChannel.setUp`). -/
def s1Added : Except LnError (Channel × Channel) := do
  let (_, a) ← add_htlc (mkChanA defaultParams) paymentHash1 one_bitcoin_in_msat 5
  let (_, b) ← receive_htlc (mkChanB defaultParams) paymentHash1 one_bitcoin_in_msat 5
  pure (a, b)

/-- S1, stage 2: the first full commitment round, in the exact message order
of `test_SimpleAddSettleWorkflow`. -/
def s1Round1 : Except LnError (Channel × Channel) := do
  let (a0, b0) ← s1Added
  let (sigA, a1) := sign_next_commitment a0
  let b1 ← receive_new_commitment b0 sigA.1 sigA.2
  let (revB, b2) ← revoke_current_commitment b1
  let (sigB, b3) := sign_next_commitment b2
  let (_, a2) ← receive_revocation a1 revB.1
  let a3 ← receive_new_commitment a2 sigB.1 sigB.2
  let (revA, a4) ← revoke_current_commitment a3
  let (_, b4) ← receive_revocation b3 revA.1
  pure (a4, b4)

/-- S1, stage 3: Bob settles with the preimage, Alice receives the settle
(no commitment round yet). -/
def s1SettleRecorded : Except LnError (Channel × Channel) := do
  let (a0, b0) ← s1Round1
  let b1 ← settle_htlc b0 1 0
  let a1 ← receive_htlc_settle a0 1 0
  pure (a1, b1)

/-- S1, stage 4: the second full commitment round (Bob commits first), in
the exact message order of `test_SimpleAddSettleWorkflow`. -/
def s1Settled : Except LnError (Channel × Channel) := do
  let (a1, b1) ← s1SettleRecorded
  let (sigB, b2) := sign_next_commitment b1
  let a2 ← receive_new_commitment a1 sigB.1 sigB.2
  let (revA, a3) ← revoke_current_commitment a2
  let (sigA, a4) := sign_next_commitment a3
  let (_, b3) ← receive_revocation b2 revA.1
  let b4 ← receive_new_commitment b3 sigA.1 sigA.2
  let (revB, b5) ← revoke_current_commitment b4
  let (_, a5) ← receive_revocation a4 revB.1
  pure (a5, b5)

/-- S5 (`TestAvailableToSpend.test_DesyncHTLCs`): Alice adds a 4.1-BTC HTLC,
a full round completes, Bob fails it, Alice receives the fail; no further
round. -/
def s5FailRecorded : Except LnError (Channel × Channel) := do
  let (_, a0) ← add_htlc (mkChanA defaultParams) paymentHash1 (41 * one_bitcoin_in_msat / 10) 5
  let (_, b0) ← receive_htlc (mkChanB defaultParams) paymentHash1 (41 * one_bitcoin_in_msat / 10) 5
  let (a1, b1) ← force_state_transition a0 b0
  let b2 ← fail_htlc b1 0
  let a2 ← receive_fail_htlc a1 0
  pure (a2, b2)

/-- S5 continued: one more full commitment round acks the fail. -/
def s5Acked : Except LnError (Channel × Channel) := do
  let (a, b) ← s5FailRecorded
  force_state_transition a b

/-- S3 (`TestChanReserve`): reserve 0.5 BTC on Alice, 6 BTC on Bob. -/
def reserveParams : ChanParams :=
  { defaultParams with
      reserveA := one_bitcoin_in_msat / 2 / 1000
      reserveB := 6 * one_bitcoin_in_msat / 1000 }

/-- S3: Alice adds a 0.5-BTC HTLC, Bob receives it, one full round. -/
def s3Round : Except LnError (Channel × Channel) := do
  let (_, a0) ← add_htlc (mkChanA reserveParams) paymentHash1 (one_bitcoin_in_msat / 2) 5
  let (_, b0) ← receive_htlc (mkChanB reserveParams) paymentHash1 (one_bitcoin_in_msat / 2) 5
  force_state_transition a0 b0

/-- S4 (`test_UpdateFeeSenderCommits`): from the `setUp` state (HTLC added
on both sides, no round), the initiator issues `update_fee(111)` and the
counterparty records it. -/
def s4FeeQueued : Except LnError (Channel × Channel) := do
  let (a0, b0) ← s1Added
  let a1 ← update_fee a0 111 true
  let b1 ← update_fee b0 111 false
  pure (a1, b1)

/-- S4: Alice sends `commitment_signed`, Bob processes it and revokes —
two of the four messages of the round. -/
def s4AfterBobRevoke : Except LnError (Channel × Channel) := do
  let (a0, b0) ← s4FeeQueued
  let (sigA, a1) := sign_next_commitment a0
  let b1 ← receive_new_commitment b0 sigA.1 sigA.2
  let (_, b2) ← revoke_current_commitment b1
  pure (a1, b2)

/-- S4: the full four-message round from the queued fee update, in the
exact message order of `test_UpdateFeeSenderCommits`. -/
def s4Complete : Except LnError (Channel × Channel) := do
  let (a0, b0) ← s4FeeQueued
  let (sigA, a1) := sign_next_commitment a0
  let b1 ← receive_new_commitment b0 sigA.1 sigA.2
  let (revB, b2) ← revoke_current_commitment b1
  let (sigB, b3) := sign_next_commitment b2
  let (_, a2) ← receive_revocation a1 revB.1
  let a3 ← receive_new_commitment a2 sigB.1 sigB.2
  let (revA, a4) ← revoke_current_commitment a3
  let (_, b4) ← receive_revocation b3 revA.1
  pure (a4, b4)

/-- S4: the state just before Alice's own revocation (three of the four
messages processed by Alice). -/
def s4BeforeAliceRevoke : Except LnError (Channel × Channel) := do
  let (a0, b0) ← s4FeeQueued
  let (sigA, a1) := sign_next_commitment a0
  let b1 ← receive_new_commitment b0 sigA.1 sigA.2
  let (revB, b2) ← revoke_current_commitment b1
  let (sigB, b3) := sign_next_commitment b2
  let (_, a2) ← receive_revocation a1 revB.1
  let a3 ← receive_new_commitment a2 sigB.1 sigB.2
  pure (a3, b3)

/-- S2 (`TestDust.test_DustLimit`): a 4478-sat HTLC and one full round. -/
def s2Round : Except LnError (Channel × Channel) := do
  let (_, a0) ← add_htlc (mkChanA defaultParams) paymentHash1 (4478 * 1000) 5
  let (_, b0) ← receive_htlc (mkChanB defaultParams) paymentHash1 (4478 * 1000) 5
  force_state_transition a0 b0

/-! ## Named states used by the claim theorems and witnesses -/

/-- The two channel objects of the reserve scenario after the locked-in
0.5-BTC HTLC. -/
def s3Alice : Channel := (okPair s3Round).1

def s3Bob : Channel := (okPair s3Round).2

def defaultRevoke : (RevokeAndAck × (Nat × Nat)) × Channel :=
  (({ per_commitment_secret := 0, next_per_commitment_point := 0 }, (0, 0)),
   mkChanA defaultParams)

def okRevoke (x : Except LnError ((RevokeAndAck × (Nat × Nat)) × Channel)) :
    (RevokeAndAck × (Nat × Nat)) × Channel :=
  match x with
  | .ok v => v
  | .error _ => defaultRevoke

/-- Bob's state in S1 just before his second revocation (the settle of the
1-BTC HTLC is about to lock in on his side). -/
def s1BobBeforeRevoke2 : Channel :=
  okChan (do
    let (a1, b1) ← s1SettleRecorded
    let (sigB, b2) := sign_next_commitment b1
    let a2 ← receive_new_commitment a1 sigB.1 sigB.2
    let (revA, a3) ← revoke_current_commitment a2
    let (sigA, _) := sign_next_commitment a3
    let (_, b3) ← receive_revocation b2 revA.1
    receive_new_commitment b3 sigA.1 sigA.2)

def s1BobRevoke2 : (RevokeAndAck × (Nat × Nat)) × Channel :=
  okRevoke (revoke_current_commitment s1BobBeforeRevoke2)

/-- Alice's state in S1 right after receiving Bob's second
`commitment_signed` (the one covering the settle). -/
def s1AliceGotSig2 : Channel :=
  okChan (do
    let (a1, b1) ← s1SettleRecorded
    let (sigB, _) := sign_next_commitment b1
    receive_new_commitment a1 sigB.1 sigB.2)

/-- Swap the two sides of a recorded resolution. -/
def flipRes (r : Resolution) : Resolution :=
  { kind := r.kind, preimage := r.preimage, endL := r.endR, endR := r.endL }

/-- Swap the two sides of an HTLC log entry. -/
def flipEntry (e : HtlcEntry) : HtlcEntry :=
  { proposer := e.proposer.other, htlc := e.htlc, startL := e.startR, startR := e.startL,
    res := e.res.map flipRes }

/-- Swap the two sides of a queued fee update. -/
def flipFee (u : FeeUpdate) : FeeUpdate :=
  { rate := u.rate, startL := u.startR, startR := u.startL }

/-- Channel `b` is the counterparty's view of channel `a`: same capacity and
base feerate, opposite initiator flag, configs swapped, and the HTLC log and
fee-update queue with all sides swapped. -/
structure Mirror (a b : Channel) : Prop where
  cap : b.capacity_sat = a.capacity_sat
  init : b.is_initiator = !a.is_initiator
  base : b.feerateBase = a.feerateBase
  cfgL : b.configL = a.configR
  cfgR : b.configR = a.configL
  log : b.htlcLog = a.htlcLog.map flipEntry
  fees : b.feeUpdates = a.feeUpdates.map flipFee

/-- One matching operation pair of spec property P2: an update-type
operation performed on one channel object and mirrored on the other
(`update_fee` is issued by the initiator A and recorded by B). -/
inductive PairOp where
  | addA (payment_hash amount_msat cltv_expiry : Nat)
  | addB (payment_hash amount_msat cltv_expiry : Nat)
  | settleA (preimage htlc_id : Nat)
  | settleB (preimage htlc_id : Nat)
  | failA (htlc_id : Nat)
  | failB (htlc_id : Nat)
  | feeOp (rate : Nat)
deriving DecidableEq, Repr

/-- Apply the A-channel half of a matching pair (state unchanged if the
operation is refused). -/
def applyLeft (op : PairOp) (ch : Channel) : Channel :=
  match op with
  | .addA ph amt cltv => match add_htlc ch ph amt cltv with
      | .ok r => r.2
      | .error _ => ch
  | .addB ph amt cltv => match receive_htlc ch ph amt cltv with
      | .ok r => r.2
      | .error _ => ch
  | .settleA pre i => match settle_htlc ch pre i with
      | .ok c => c
      | .error _ => ch
  | .settleB pre i => match receive_htlc_settle ch pre i with
      | .ok c => c
      | .error _ => ch
  | .failA i => match fail_htlc ch i with
      | .ok c => c
      | .error _ => ch
  | .failB i => match receive_fail_htlc ch i with
      | .ok c => c
      | .error _ => ch
  | .feeOp rate => match update_fee ch rate true with
      | .ok c => c
      | .error _ => ch

/-- Apply the B-channel half of a matching pair. -/
def applyRight (op : PairOp) (ch : Channel) : Channel :=
  match op with
  | .addA ph amt cltv => match receive_htlc ch ph amt cltv with
      | .ok r => r.2
      | .error _ => ch
  | .addB ph amt cltv => match add_htlc ch ph amt cltv with
      | .ok r => r.2
      | .error _ => ch
  | .settleA pre i => match receive_htlc_settle ch pre i with
      | .ok c => c
      | .error _ => ch
  | .settleB pre i => match settle_htlc ch pre i with
      | .ok c => c
      | .error _ => ch
  | .failA i => match receive_fail_htlc ch i with
      | .ok c => c
      | .error _ => ch
  | .failB i => match fail_htlc ch i with
      | .ok c => c
      | .error _ => ch
  | .feeOp rate => match update_fee ch rate false with
      | .ok c => c
      | .error _ => ch

/-- Run a sequence of matching operation pairs on the two channel objects. -/
def runPairs (ops : List PairOp) (p : Channel × Channel) : Channel × Channel :=
  ops.foldl (fun q op => (applyLeft op q.1, applyRight op q.2)) p

/-- Bob's channel in the dust scenario after the 4478-sat HTLC locked in. -/
def s2Bob : Channel := (okPair s2Round).2

/-! ## Theorems -/

/-- C1 (counterexample): in the SimpleAddSettle scenario, after the first
full commitment round Alice's `balance(LOCAL)` is not `4·10^11` msat (it is
`5·10^11`: `balance` moves only on fully locked-in settles, and nothing is
settled yet; `4·10^11` is her balance after the settle round, asserted at
the end of `test_SimpleAddSettleWorkflow`). -/
theorem c1_balance_counterexample :
    s1Round1.map (fun p => balance p.1 .LOCAL) ≠ Except.ok (4 * one_bitcoin_in_msat) := by
  decide

/-- C1 (amended): after Alice's 1-BTC HTLC and one full commitment round,
both pending commitments have exactly 3 outputs, one of value `10^8` sat,
and Alice's `balance(LOCAL)` equals `5·10^11` msat (not `4·10^11`); after
Bob settles and a second full round completes,
`alice.total_msat(SENT) = 10^11`, `bob.total_msat(RECEIVED) = 10^11`, and
both sides' LOCAL ctn equals 2. -/
theorem c1_simple_add_settle_amended :
    s1Round1.map (fun p =>
      ((pending_commitment p.1 .LOCAL).outputs.length,
       (pending_commitment p.2 .LOCAL).outputs.length,
       (pending_commitment p.1 .LOCAL).outputs.any (fun o => o.value = 100000000),
       (pending_commitment p.2 .LOCAL).outputs.any (fun o => o.value = 100000000),
       balance p.1 .LOCAL))
      = Except.ok (3, 3, true, true, 5 * one_bitcoin_in_msat)
    ∧ s1Settled.map (fun p =>
        (total_msat p.1 .SENT, total_msat p.2 .RECEIVED, p.1.configL.ctn, p.2.configL.ctn))
        = Except.ok (one_bitcoin_in_msat, one_bitcoin_in_msat, 2, 2) := by
  constructor
  · decide
  · decide

/-- C3: `sign_next_commitment` does not mutate persistent state: the saved
record before and after the call is identical, for every channel state, and
the produced signature covers the remote's next commitment.  (The spec's
operation table speaks of marking `got_sig_for_next=false` on the remote
side, but per the data model only the LOCAL config carries that flag, so
nothing persistent can change; this matches `test_sign_commitment_is_pure`.) -/
theorem c3_sign_next_commitment_pure (ch : Channel) :
    to_save (sign_next_commitment ch).2 = to_save ch
      ∧ (sign_next_commitment ch).1.1 = ctxFor ch .REMOTE (ch.ctnOf .REMOTE + 1) :=
  ⟨rfl, rfl⟩

/-- C4: after Alice's 4.1-BTC HTLC locks in, Bob fails it and Alice records
the fail with no further round: Alice's 1-BTC `add_htlc` raises
`PaymentFailure` (the fail is unacked, her balance not yet restored);
after one more full round the same `add_htlc` succeeds. -/
theorem c4_desync_htlcs :
    s5FailRecorded.map (fun p =>
      (add_htlc p.1 paymentHash1 one_bitcoin_in_msat 5).map (fun r => r.1))
      = Except.ok (Except.error LnError.PaymentFailure)
    ∧ s5Acked.map (fun p =>
        (add_htlc p.1 paymentHash1 one_bitcoin_in_msat 5).isOk) = Except.ok true := by
  constructor
  · decide
  · decide

/-- C5: with reserves 0.5 BTC (Alice) / 6 BTC (Bob) and the locked-in
0.5-BTC HTLC from Alice, every `add_htlc` Bob attempts fails with
`PaymentFailure` (his balance is below his reserve), and Alice's
`receive_htlc` of any such HTLC fails with `RemoteMisbehaving`. -/
theorem c5_reserve_blocks_bob (payment_hash amount_msat cltv_expiry : Nat) :
    s3Round.isOk = true
      ∧ add_htlc s3Bob payment_hash amount_msat cltv_expiry
          = Except.error LnError.PaymentFailure
      ∧ receive_htlc s3Alice payment_hash amount_msat cltv_expiry
          = Except.error LnError.RemoteMisbehaving := by
  refine ⟨by decide, ?_, ?_⟩
  · have hc : canAddHtlc s3Bob .LOCAL amount_msat cltv_expiry = false := by
      cases h : canAddHtlc s3Bob .LOCAL amount_msat cltv_expiry
      · rfl
      · exfalso
        simp only [canAddHtlc, Bool.and_eq_true, decide_eq_true_eq] at h
        have hr : reserveFor s3Bob .LOCAL = 600000000 := by decide
        have hb : balance s3Bob .LOCAL = 500000000000 := by decide
        have hle := h.2
        rw [hr, hb] at hle
        omega
    simp [add_htlc, hc]
  · have hc : canAddHtlc s3Alice .REMOTE amount_msat cltv_expiry = false := by
      cases h : canAddHtlc s3Alice .REMOTE amount_msat cltv_expiry
      · rfl
      · exfalso
        simp only [canAddHtlc, Bool.and_eq_true, decide_eq_true_eq] at h
        have hr : reserveFor s3Alice .REMOTE = 600000000 := by decide
        have hb : balance s3Alice .REMOTE = 500000000000 := by decide
        have hle := h.2
        rw [hr, hb] at hle
        omega
    simp [receive_htlc, hc]

/-- C6 (counterexample): the claim says `constraints.feerate` remains the
old value (6000) on both sides until the full four-message round finishes;
but after only two messages (Alice's `commitment_signed`, Bob's
`revoke_and_ack`) Bob's `constraints.feerate` is already 111. -/
theorem c6_feerate_counterexample :
    s4AfterBobRevoke.map (fun p => (p.1.constraintsFeerate, p.2.constraintsFeerate))
      = Except.ok (6000, 111)
    ∧ (111 : Nat) ≠ 6000 := by
  constructor
  · decide
  · decide

/-- C6 (amended): after the initiator issues `update_fee(111)`,
`constraints.feerate` remains the old value on each side until that side
itself revokes: both still 6000 right after the update is queued; after
Bob's revocation Bob already observes 111 while Alice still observes 6000,
and she keeps observing 6000 through Bob's `commitment_signed`; after both
sides have revoked, both observe 111. -/
theorem c6_feerate_update_amended :
    s4FeeQueued.map (fun p => (p.1.constraintsFeerate, p.2.constraintsFeerate))
      = Except.ok (6000, 6000)
    ∧ s4AfterBobRevoke.map (fun p => (p.1.constraintsFeerate, p.2.constraintsFeerate))
        = Except.ok (6000, 111)
    ∧ s4BeforeAliceRevoke.map (fun p => p.1.constraintsFeerate) = Except.ok 6000
    ∧ s4Complete.map (fun p => (p.1.constraintsFeerate, p.2.constraintsFeerate))
        = Except.ok (111, 111) := by
  refine ⟨by decide, by decide, by decide, by decide⟩

/-- C7: on the standard channel, an HTLC of exactly 4478 sat, once locked
in by a full round, leaves Bob's current local commitment with 2 outputs
(dust from Bob's side: his 1300-sat dust limit plus the HTLC-success weight
at 6000 sat/kw exceeds 4478) while Alice's has 3. -/
theorem c7_dust_limit_boundary :
    s2Round.map (fun p =>
      ((current_commitment p.1 .LOCAL).outputs.length,
       (current_commitment p.2 .LOCAL).outputs.length))
      = Except.ok (3, 2) := by
  decide

/-- C8: `revoke_current_commitment` returns a pair whose first component is
the RevokeAndAck (the old per-commitment secret, at index
`START_INDEX - LOCAL.ctn`, and the next per-commitment point) and whose
second component is `(received_msat, sent_msat)`: the settled HTLC amounts
whose removal locks in exactly at the newly revoked-to ctn. -/
theorem c8_revoke_returns (ch : Channel) (out : RevokeAndAck × (Nat × Nat)) (ch2 : Channel)
    (h : revoke_current_commitment ch = Except.ok (out, ch2)) :
    out.1 = { per_commitment_secret :=
                perCommitmentSecret ch.seed (START_INDEX - ch.ctnOf .LOCAL)
              next_per_commitment_point := pointAt ch.seed (ch.ctnOf .LOCAL + 2) }
      ∧ out.2 = (settledInCtn ch .LOCAL (ch.ctnOf .LOCAL + 1) .REMOTE,
                 settledInCtn ch .LOCAL (ch.ctnOf .LOCAL + 1) .LOCAL) := by
  unfold revoke_current_commitment at h
  cases hg : ch.got_sig_for_next <;> rw [hg] at h
  · exact absurd h (by simp)
  · rw [if_pos rfl] at h
    injection h with h2
    injection h2 with h3 h4
    rw [← h3]
    exact ⟨rfl, rfl⟩

/-- Witness for C8: at Bob's second revocation of S1, the msat tuple
reports the just-locked-in 1-BTC settle as received. -/
theorem c8_revoke_returns_witness :
    s1BobRevoke2.1.2 = (one_bitcoin_in_msat, 0) := by
  have h := c8_revoke_returns s1BobBeforeRevoke2 s1BobRevoke2.1 s1BobRevoke2.2 (by rfl)
  rw [h.2]
  decide

/-- C10: the serialized `force_close_tx` is unchanged by `settle_htlc`,
`receive_htlc_settle` and `update_fee` alone, and by
`revoke_current_commitment` (whose precondition is exactly that the
signature for the next commitment was already received); and receiving a
new commitment signature does change it (concretely, in S1 the settle round
changes Alice's force-close tx only at `receive_new_commitment`). -/
theorem c10_force_close_frame :
    (∀ (ch : Channel) (preimage htlc_id : Nat) (ch2 : Channel),
        settle_htlc ch preimage htlc_id = Except.ok ch2 →
        force_close_tx ch2 = force_close_tx ch)
    ∧ (∀ (ch : Channel) (preimage htlc_id : Nat) (ch2 : Channel),
        receive_htlc_settle ch preimage htlc_id = Except.ok ch2 →
        force_close_tx ch2 = force_close_tx ch)
    ∧ (∀ (ch : Channel) (rate : Nat) (ours : Bool) (ch2 : Channel),
        update_fee ch rate ours = Except.ok ch2 →
        force_close_tx ch2 = force_close_tx ch)
    ∧ (∀ (ch : Channel) (out : RevokeAndAck × (Nat × Nat)) (ch2 : Channel),
        revoke_current_commitment ch = Except.ok (out, ch2) →
        force_close_tx ch2 = force_close_tx ch)
    ∧ force_close_tx s1AliceGotSig2 ≠ force_close_tx (okPair s1SettleRecorded).1 := by
  refine ⟨?_, ?_, ?_, ?_, by decide⟩
  · intro ch preimage htlc_id ch2 h
    unfold settle_htlc at h
    split at h
    · rw [← Except.ok.inj h]; rfl
    · exact absurd h (by simp)
  · intro ch preimage htlc_id ch2 h
    unfold receive_htlc_settle at h
    split at h
    · rw [← Except.ok.inj h]; rfl
    · exact absurd h (by simp)
  · intro ch rate ours ch2 h
    unfold update_fee at h
    cases ours
    · rw [if_neg Bool.false_ne_true] at h
      cases hi : ch.is_initiator <;> rw [hi] at h
      · rw [if_neg Bool.false_ne_true] at h
        injection h with h2
        rw [← h2]; rfl
      · rw [if_pos rfl] at h
        exact absurd h (by simp)
    · rw [if_pos rfl] at h
      cases hi : ch.is_initiator <;> rw [hi] at h
      · rw [if_neg Bool.false_ne_true] at h
        exact absurd h (by simp)
      · rw [if_pos rfl] at h
        injection h with h2
        rw [← h2]; rfl
  · intro ch out ch2 h
    unfold revoke_current_commitment at h
    cases hg : ch.got_sig_for_next <;> rw [hg] at h
    · exact absurd h (by simp)
    · rw [if_pos rfl] at h
      injection h with h2
      injection h2 with h3 h4
      rw [← h4]
      rfl

/-- Witness for C10: the frame facts instantiated in the S1 run: Bob's
settle, Alice's receive of it, Alice's later `update_fee`, and Alice's
second revocation each leave the respective `force_close_tx` unchanged. -/
theorem c10_force_close_frame_witness :
    force_close_tx (okChan (settle_htlc (okPair s1Round1).2 1 0))
        = force_close_tx (okPair s1Round1).2
      ∧ force_close_tx (okChan (receive_htlc_settle (okPair s1Round1).1 1 0))
          = force_close_tx (okPair s1Round1).1
      ∧ force_close_tx (okChan (update_fee (okPair s1Settled).1 100000 true))
          = force_close_tx (okPair s1Settled).1
      ∧ force_close_tx (okRevoke (revoke_current_commitment s1AliceGotSig2)).2
          = force_close_tx s1AliceGotSig2 := by
  refine ⟨?_, ?_, ?_, ?_⟩
  · exact c10_force_close_frame.1 (okPair s1Round1).2 1 0 _ (by rfl)
  · exact c10_force_close_frame.2.1 (okPair s1Round1).1 1 0 _ (by rfl)
  · exact c10_force_close_frame.2.2.1 (okPair s1Settled).1 100000 true _ (by rfl)
  · exact c10_force_close_frame.2.2.2.1 s1AliceGotSig2
      (okRevoke (revoke_current_commitment s1AliceGotSig2)).1
      (okRevoke (revoke_current_commitment s1AliceGotSig2)).2 (by rfl)

theorem htlcOwner_other_other (s : HTLCOwner) : s.other.other = s := by
  cases s <;> rfl

theorem htlcsum_cons (x : HtlcEntry) (xs : List HtlcEntry) :
    htlcsum (x :: xs) = x.htlc.amount_msat + htlcsum xs := rfl

theorem sum_insertSorted (o : TxOutput) (l : List TxOutput) :
    ((insertSorted o l).map TxOutput.value).sum = o.value + (l.map TxOutput.value).sum := by
  induction l with
  | nil => rfl
  | cons x xs ih =>
      unfold insertSorted
      split
      · rfl
      · simp only [List.map_cons, List.sum_cons, ih]
        omega

theorem sum_sortOutputs (l : List TxOutput) :
    ((sortOutputs l).map TxOutput.value).sum = (l.map TxOutput.value).sum := by
  induction l with
  | nil => rfl
  | cons x xs ih =>
      unfold sortOutputs at ih ⊢
      simp only [List.foldr_cons, sum_insertSorted, ih, List.map_cons, List.sum_cons]

theorem htlcsum_filter_partition (p : HtlcEntry → Bool) (l : List HtlcEntry) :
    htlcsum l = htlcsum (l.filter p) + htlcsum (l.filter (fun e => !p e)) := by
  induction l with
  | nil => rfl
  | cons x xs ih =>
      cases hp : p x <;>
        simp only [List.filter_cons, hp, htlcsum_cons, Bool.not_true, Bool.not_false,
          cond_true, cond_false, if_pos, if_neg, Bool.false_eq_true, ite_true, ite_false] <;>
        omega

theorem htlcsum_dvd (l : List HtlcEntry) (h : ∀ e ∈ l, 1000 ∣ e.htlc.amount_msat) :
    1000 ∣ htlcsum l := by
  induction l with
  | nil => exact ⟨0, rfl⟩
  | cons x xs ih =>
      rw [htlcsum_cons]
      exact Nat.dvd_add (h x (List.mem_cons_self x xs)) (ih fun e he => h e (List.mem_cons_of_mem x he))

theorem htlcsum_filter_dvd (ch : Channel) (p : HtlcEntry → Bool)
    (h : ∀ e ∈ ch.htlcLog, 1000 ∣ e.htlc.amount_msat) :
    1000 ∣ htlcsum (ch.htlcLog.filter p) :=
  htlcsum_dvd _ (fun e he => h e (List.mem_of_mem_filter he))

theorem htlcsum_sat (l : List HtlcEntry) (h : ∀ e ∈ l, 1000 ∣ e.htlc.amount_msat) :
    ((l.map (fun e => e.htlc.amount_msat / 1000)).sum) * 1000 = htlcsum l := by
  induction l with
  | nil => rfl
  | cons x xs ih =>
      rw [htlcsum_cons, List.map_cons, List.sum_cons, Nat.add_mul,
        Nat.div_mul_cancel (h x (List.mem_cons_self x xs)),
        ih fun e he => h e (List.mem_cons_of_mem x he)]

theorem htlcOutput_value (owner : HTLCOwner) (e : HtlcEntry) :
    (htlcOutput owner e).value = e.htlc.amount_msat / 1000 := by
  unfold htlcOutput
  split <;> rfl

theorem owner_not_eq (a b : HTLCOwner) :
    (!(decide (a = b))) = decide (a = b.other) := by
  cases a <;> cases b <;> rfl

theorem configOf_initial_dvd (ch : Channel) (hdL : 1000 ∣ ch.configL.initial_msat)
    (hdR : 1000 ∣ ch.configR.initial_msat) (p : HTLCOwner) :
    1000 ∣ (ch.configOf p).initial_msat := by
  cases p
  · exact hdL
  · exact hdR

/-- C9: for every commitment transaction, the weight is
`724 + 172 * (non-dust HTLC count)` and the fee is
`feerate * weight / 1000` (integer division); and the value of every output
omitted as dust is added to that fee: under well-formedness hypotheses
(initial balances sum to the capacity, all msat amounts divisible by 1000,
no balance underflow) the capacity splits exactly into the kept outputs,
the computed fee, and the values of all dust-omitted outputs — so a
commitment whose only HTLC is dust pays the zero-HTLC static fee plus the
dust HTLC's amount. -/
theorem c9_commitment_fee_and_dust (ch : Channel) (owner : HTLCOwner) (n : Nat)
    (hcap : ch.configL.initial_msat + ch.configR.initial_msat = ch.capacity_sat * 1000)
    (hdvd : ∀ e ∈ ch.htlcLog, 1000 ∣ e.htlc.amount_msat)
    (hdL : 1000 ∣ ch.configL.initial_msat)
    (hdR : 1000 ∣ ch.configR.initial_msat)
    (hbal : ∀ p, settledSent ch owner n p
        ≤ (ch.configOf p).initial_msat + settledSent ch owner n p.other)
    (hout : ∀ p, pendingSent ch owner n p
        + (if p = ch.feePayer then ctxFee ch owner n * 1000 else 0)
        ≤ balInCtx ch owner n p) :
    commitmentWeight (ctxNondust ch owner n).length = 724 + 172 * (ctxNondust ch owner n).length
    ∧ ctxFee ch owner n
        = feerateAt ch owner n * commitmentWeight (ctxNondust ch owner n).length / 1000
    ∧ ch.capacity_sat
        = ((ctxFor ch owner n).outputs.map TxOutput.value).sum
            + ctxFee ch owner n
            + ((ctxDustHtlcs ch owner n).map (fun e => e.htlc.amount_msat / 1000)).sum
            + (if (ch.configOf owner).dust_limit_sat ≤ toLocalSat ch owner n then 0
               else toLocalSat ch owner n)
            + (if (ch.configOf owner).dust_limit_sat ≤ toRemoteSat ch owner n then 0
               else toRemoteSat ch owner n) := by
  refine ⟨rfl, rfl, ?_⟩
  have hdvdIncl : ∀ e ∈ includedEntries ch owner n, 1000 ∣ e.htlc.amount_msat :=
    fun e he => hdvd e (List.mem_of_mem_filter he)
  have hdvdNd : ∀ e ∈ ctxNondust ch owner n, 1000 ∣ e.htlc.amount_msat :=
    fun e he => hdvdIncl e (List.mem_of_mem_filter he)
  have hdvdDu : ∀ e ∈ ctxDustHtlcs ch owner n, 1000 ∣ e.htlc.amount_msat :=
    fun e he => hdvdIncl e (List.mem_of_mem_filter he)
  -- divisibility of the two balance outputs
  have hdSettled : ∀ p, 1000 ∣ settledSent ch owner n p :=
    fun p => htlcsum_filter_dvd ch _ hdvd
  have hdPending : ∀ p, 1000 ∣ pendingSent ch owner n p :=
    fun p => htlcsum_dvd _ (fun e he => hdvdIncl e (List.mem_of_mem_filter he))
  have hdBal : ∀ p, 1000 ∣ balInCtx ch owner n p := by
    intro p
    exact Nat.dvd_sub'
      (Nat.dvd_add (configOf_initial_dvd ch hdL hdR p) (hdSettled p.other)) (hdSettled p)
  have hdFeeTerm : ∀ p, 1000 ∣ (if p = ch.feePayer then ctxFee ch owner n * 1000 else 0) := by
    intro p
    split
    · exact Dvd.intro (ctxFee ch owner n) (Nat.mul_comm 1000 (ctxFee ch owner n))
    · exact Nat.dvd_zero 1000
  have hdToMsat : ∀ p, 1000 ∣ toMsat ch owner n (ctxFee ch owner n) p := by
    intro p
    exact Nat.dvd_sub' (Nat.dvd_sub' (hdBal p) (hdPending p)) (hdFeeTerm p)
  -- sat-to-msat bridges
  have htl : toLocalSat ch owner n * 1000 = toMsat ch owner n (ctxFee ch owner n) owner :=
    Nat.div_mul_cancel (hdToMsat owner)
  have htr : toRemoteSat ch owner n * 1000
      = toMsat ch owner n (ctxFee ch owner n) owner.other :=
    Nat.div_mul_cancel (hdToMsat owner.other)
  have hnd : ((ctxNondust ch owner n).map (fun e => e.htlc.amount_msat / 1000)).sum * 1000
      = htlcsum (ctxNondust ch owner n) := htlcsum_sat _ hdvdNd
  have hdu : ((ctxDustHtlcs ch owner n).map (fun e => e.htlc.amount_msat / 1000)).sum * 1000
      = htlcsum (ctxDustHtlcs ch owner n) := htlcsum_sat _ hdvdDu
  -- outputs sum
  have hout1 : ((ctxFor ch owner n).outputs.map TxOutput.value).sum
      = (if (ch.configOf owner).dust_limit_sat ≤ toLocalSat ch owner n
         then toLocalSat ch owner n else 0)
        + (if (ch.configOf owner).dust_limit_sat ≤ toRemoteSat ch owner n
           then toRemoteSat ch owner n else 0)
        + ((ctxNondust ch owner n).map (fun e => e.htlc.amount_msat / 1000)).sum := by
    show ((sortOutputs _).map TxOutput.value).sum = _
    rw [sum_sortOutputs]
    rw [List.map_append, List.map_append, List.sum_append, List.sum_append]
    have h3 : (((ctxNondust ch owner n).map (htlcOutput owner)).map TxOutput.value).sum
        = ((ctxNondust ch owner n).map (fun e => e.htlc.amount_msat / 1000)).sum := by
      rw [List.map_map]
      exact congrArg List.sum
        (List.map_congr_left (fun e _ => htlcOutput_value owner e))
    rw [h3]
    congr 2
    · split <;> simp
    · split <;> simp
  -- msat conservation
  have hcapg : (ch.configOf owner).initial_msat + (ch.configOf owner.other).initial_msat
      = ch.capacity_sat * 1000 := by
    cases owner <;> simp only [Channel.configOf, HTLCOwner.other] <;> omega
  have hpart : htlcsum (includedEntries ch owner n)
      = pendingSent ch owner n owner + pendingSent ch owner n owner.other := by
    unfold pendingSent
    rw [htlcsum_filter_partition (fun e => e.proposer = owner) (includedEntries ch owner n)]
    congr 1
    apply congrArg
    exact List.filter_congr (fun e _ => owner_not_eq e.proposer owner)
  have hdustpart : htlcsum (includedEntries ch owner n)
      = htlcsum (ctxNondust ch owner n) + htlcsum (ctxDustHtlcs ch owner n) :=
    htlcsum_filter_partition _ _
  have hfee : (if owner = ch.feePayer then ctxFee ch owner n * 1000 else 0)
      + (if owner.other = ch.feePayer then ctxFee ch owner n * 1000 else 0)
      = ctxFee ch owner n * 1000 := by
    cases owner <;> cases hI : ch.is_initiator <;>
      simp [Channel.feePayer, hI, HTLCOwner.other]
  have e1 : toMsat ch owner n (ctxFee ch owner n) owner
      = balInCtx ch owner n owner - pendingSent ch owner n owner
        - (if owner = ch.feePayer then ctxFee ch owner n * 1000 else 0) := rfl
  have e2 : toMsat ch owner n (ctxFee ch owner n) owner.other
      = balInCtx ch owner n owner.other - pendingSent ch owner n owner.other
        - (if owner.other = ch.feePayer then ctxFee ch owner n * 1000 else 0) := rfl
  have e3 : balInCtx ch owner n owner
      = (ch.configOf owner).initial_msat + settledSent ch owner n owner.other
        - settledSent ch owner n owner := rfl
  have e4 : balInCtx ch owner n owner.other
      = (ch.configOf owner.other).initial_msat + settledSent ch owner n owner
        - settledSent ch owner n owner.other := by
    unfold balInCtx
    rw [htlcOwner_other_other]
  have hb1 := hbal owner
  have hb2 := hbal owner.other
  rw [htlcOwner_other_other] at hb2
  have ho1 := hout owner
  have ho2 := hout owner.other
  rw [hout1]
  by_cases h1 : (ch.configOf owner).dust_limit_sat ≤ toLocalSat ch owner n <;>
    by_cases h2 : (ch.configOf owner).dust_limit_sat ≤ toRemoteSat ch owner n <;>
      simp only [h1, h2, if_pos, if_neg, ite_true, ite_false, not_false_eq_true,
        not_true_eq_false] <;>
      omega

/-! ## Mirror symmetry (P2) -/

theorem flipEntry_involutive (e : HtlcEntry) : flipEntry (flipEntry e) = e := by
  rcases e with ⟨p, h, sl, sr, r⟩
  cases p <;> cases r <;> rfl

theorem flipFee_involutive (u : FeeUpdate) : flipFee (flipFee u) = u := rfl

theorem map_flipFee_involutive (l : List FeeUpdate) : (l.map flipFee).map flipFee = l := by
  induction l with
  | nil => rfl
  | cons x xs ih => simp [flipFee_involutive, ih]

theorem map_flipEntry_involutive (l : List HtlcEntry) :
    (l.map flipEntry).map flipEntry = l := by
  induction l with
  | nil => rfl
  | cons x xs ih => simp [flipEntry_involutive, ih]

theorem Mirror.symm (h : Mirror a b) : Mirror b a := by
  constructor
  · exact h.cap.symm
  · rw [h.init, Bool.not_not]
  · exact h.base.symm
  · exact h.cfgR.symm
  · exact h.cfgL.symm
  · rw [h.log, map_flipEntry_involutive]
  · rw [h.fees, map_flipFee_involutive]

theorem filter_map_general {A B : Type} (f : A → B) (p : B → Bool) (l : List A) :
    (l.map f).filter p = (l.filter (fun x => p (f x))).map f := by
  induction l with
  | nil => rfl
  | cons x xs ih =>
      simp only [List.map_cons, List.filter_cons]
      cases p (f x) <;> simp [ih]

theorem any_map_general {A B : Type} (f : A → B) (p : B → Bool) (l : List A) :
    (l.map f).any p = l.any (fun x => p (f x)) := by
  induction l with
  | nil => rfl
  | cons x xs ih => simp [List.any_cons, ih]

theorem configOf_mirror (h : Mirror a b) (s : HTLCOwner) :
    b.configOf s = a.configOf s.other := by
  cases s
  · exact h.cfgL
  · exact h.cfgR

theorem ctnOf_mirror (h : Mirror a b) (s : HTLCOwner) : b.ctnOf s = a.ctnOf s.other := by
  unfold Channel.ctnOf
  rw [configOf_mirror h]

theorem flipFee_startOf (u : FeeUpdate) (s : HTLCOwner) :
    (flipFee u).startOf s = u.startOf s.other := by
  cases s <;> rfl

theorem feerateAt_mirror (h : Mirror a b) (s : HTLCOwner) (n : Nat) :
    feerateAt b s n = feerateAt a s.other n := by
  unfold feerateAt
  rw [h.fees, h.base, List.foldl_map]
  congr 1
  funext acc u
  cases s <;> rfl

theorem inclAt_flip (s : HTLCOwner) (n : Nat) (e : HtlcEntry) :
    inclAt s n (flipEntry e) = inclAt s.other n e := by
  rcases e with ⟨p, h, sl, sr, r⟩
  cases r <;> cases s <;> rfl

theorem includedEntries_mirror (h : Mirror a b) (s : HTLCOwner) (n : Nat) :
    includedEntries b s n = (includedEntries a s.other n).map flipEntry := by
  unfold includedEntries
  rw [h.log, filter_map_general]
  congr 1
  exact List.filter_congr (fun e _ => inclAt_flip s n e)

theorem htlcsum_map_flip (l : List HtlcEntry) : htlcsum (l.map flipEntry) = htlcsum l := by
  unfold htlcsum
  rw [List.map_map]
  rfl

theorem settledAt_flip (s : HTLCOwner) (n : Nat) (e : HtlcEntry) :
    settledAt s n (flipEntry e) = settledAt s.other n e := by
  rcases e with ⟨p, h, sl, sr, r⟩
  cases r <;> cases s <;> rfl

theorem proposer_flip_eq (e : HtlcEntry) (p : HTLCOwner) :
    (decide ((flipEntry e).proposer = p)) = decide (e.proposer = p.other) := by
  rcases e with ⟨q, h, sl, sr, r⟩
  cases q <;> cases p <;> rfl

theorem settledSent_mirror (h : Mirror a b) (s : HTLCOwner) (n : Nat) (p : HTLCOwner) :
    settledSent b s n p = settledSent a s.other n p.other := by
  unfold settledSent
  rw [h.log, filter_map_general]
  rw [List.filter_congr (fun e _ => by rw [settledAt_flip, proposer_flip_eq])]
  exact htlcsum_map_flip _

theorem htlcOwner_other_other2 (s : HTLCOwner) : s.other.other = s := by
  cases s <;> rfl

theorem balInCtx_mirror (h : Mirror a b) (s : HTLCOwner) (n : Nat) (p : HTLCOwner) :
    balInCtx b s n p = balInCtx a s.other n p.other := by
  unfold balInCtx
  rw [configOf_mirror h, settledSent_mirror h, settledSent_mirror h,
    htlcOwner_other_other2]

theorem feePayer_mirror (h : Mirror a b) : b.feePayer = a.feePayer.other := by
  unfold Channel.feePayer
  rw [h.init]
  cases a.is_initiator <;> rfl

theorem pendingSent_mirror (h : Mirror a b) (s : HTLCOwner) (n : Nat) (p : HTLCOwner) :
    pendingSent b s n p = pendingSent a s.other n p.other := by
  unfold pendingSent
  rw [includedEntries_mirror h, filter_map_general]
  rw [List.filter_congr (fun e _ => proposer_flip_eq e p)]
  exact htlcsum_map_flip _

theorem ite_eq_other {A : Type} (x y : HTLCOwner) (u v : A) :
    (if x = y.other then u else v) = (if x.other = y then u else v) := by
  cases x <;> cases y <;> rfl

theorem toMsat_mirror (h : Mirror a b) (s : HTLCOwner) (n fee : Nat) (p : HTLCOwner) :
    toMsat b s n fee p = toMsat a s.other n fee p.other := by
  unfold toMsat
  rw [balInCtx_mirror h, pendingSent_mirror h, feePayer_mirror h, ite_eq_other]

theorem htlcDustWeight_flip (s : HTLCOwner) (e : HtlcEntry) :
    htlcDustWeight s (flipEntry e) = htlcDustWeight s.other e := by
  rcases e with ⟨q, h, sl, sr, r⟩
  cases q <;> cases s <;> rfl

theorem isNondust_flip (h : Mirror a b) (s : HTLCOwner) (rate : Nat) (e : HtlcEntry) :
    isNondustHtlc b s rate (flipEntry e) = isNondustHtlc a s.other rate e := by
  unfold isNondustHtlc
  rw [configOf_mirror h, htlcDustWeight_flip]
  rfl

theorem ctxNondust_mirror (h : Mirror a b) (s : HTLCOwner) (n : Nat) :
    ctxNondust b s n = (ctxNondust a s.other n).map flipEntry := by
  unfold ctxNondust
  rw [feerateAt_mirror h, includedEntries_mirror h, filter_map_general]
  congr 1
  exact List.filter_congr (fun e _ => isNondust_flip h s (feerateAt a s.other n) e)

theorem ctxFee_mirror (h : Mirror a b) (s : HTLCOwner) (n : Nat) :
    ctxFee b s n = ctxFee a s.other n := by
  unfold ctxFee
  rw [feerateAt_mirror h, ctxNondust_mirror h, List.length_map]

theorem toLocalSat_mirror (h : Mirror a b) (s : HTLCOwner) (n : Nat) :
    toLocalSat b s n = toLocalSat a s.other n := by
  unfold toLocalSat
  rw [ctxFee_mirror h, toMsat_mirror h]

theorem toRemoteSat_mirror (h : Mirror a b) (s : HTLCOwner) (n : Nat) :
    toRemoteSat b s n = toRemoteSat a s.other n := by
  unfold toRemoteSat
  rw [ctxFee_mirror h, toMsat_mirror h, htlcOwner_other_other2]

theorem htlcOutput_flip (s : HTLCOwner) (e : HtlcEntry) :
    htlcOutput s (flipEntry e) = htlcOutput s.other e := by
  rcases e with ⟨q, h, sl, sr, r⟩
  cases q <;> cases s <;> rfl

theorem ctxFor_mirror (h : Mirror a b) (s : HTLCOwner) (n : Nat) :
    ctxFor b s n = ctxFor a s.other n := by
  have hmap : (ctxNondust a s.other n).map (htlcOutput s ∘ flipEntry)
      = (ctxNondust a s.other n).map (htlcOutput s.other) :=
    List.map_congr_left (fun e _ => htlcOutput_flip s e)
  simp only [ctxFor, configOf_mirror h, toLocalSat_mirror h, toRemoteSat_mirror h,
    feerateAt_mirror h, ctxNondust_mirror h, List.map_map, hmap]

theorem flipRes_endOf (r : Resolution) (s : HTLCOwner) :
    (flipRes r).endOf s = r.endOf s.other := by
  cases s <;> rfl

theorem bool_and_rot (k x y : Bool) : ((k && x) && y) = ((k && y) && x) := by
  cases k <;> cases x <;> cases y <;> rfl

theorem resLockedIn_mirror (h : Mirror a b) (e : HtlcEntry) :
    resLockedIn b (flipEntry e) = resLockedIn a e := by
  unfold resLockedIn
  rw [ctnOf_mirror h, ctnOf_mirror h]
  rcases e with ⟨q, hh, sl, sr, r⟩
  cases r
  · rfl
  · exact Bool.and_comm _ _

theorem fullySettled_mirror (h : Mirror a b) (e : HtlcEntry) :
    fullySettled b (flipEntry e) = fullySettled a e := by
  unfold fullySettled
  rw [ctnOf_mirror h, ctnOf_mirror h]
  rcases e with ⟨q, hh, sl, sr, r⟩
  cases r
  · rfl
  · exact bool_and_rot _ _ _

theorem lockedSettledSent_mirror (h : Mirror a b) (p : HTLCOwner) :
    lockedSettledSent b p = lockedSettledSent a p.other := by
  unfold lockedSettledSent
  rw [h.log, filter_map_general]
  rw [List.filter_congr (fun e _ => by rw [fullySettled_mirror h, proposer_flip_eq])]
  exact htlcsum_map_flip _

theorem balance_mirror (h : Mirror a b) (p : HTLCOwner) :
    balance b p = balance a p.other := by
  unfold balance
  rw [configOf_mirror h, lockedSettledSent_mirror h, lockedSettledSent_mirror h,
    htlcOwner_other_other2]

theorem inFlightSentBy_mirror (h : Mirror a b) (p : HTLCOwner) :
    inFlightSentBy b p = (inFlightSentBy a p.other).map flipEntry := by
  unfold inFlightSentBy
  rw [h.log, filter_map_general]
  congr 1
  exact List.filter_congr (fun e _ => by rw [proposer_flip_eq, resLockedIn_mirror h])

theorem reserveFor_mirror (h : Mirror a b) (p : HTLCOwner) :
    reserveFor b p = reserveFor a p.other := by
  unfold reserveFor
  rw [configOf_mirror h, htlcOwner_other_other2]

theorem pending_feerate_mirror (h : Mirror a b) (s : HTLCOwner) :
    pending_feerate b s = pending_feerate a s.other := by
  unfold pending_feerate
  rw [ctnOf_mirror h, feerateAt_mirror h]

theorem canAddHtlc_mirror (h : Mirror a b) (s : HTLCOwner) (amount_msat cltv_expiry : Nat) :
    canAddHtlc b s amount_msat cltv_expiry = canAddHtlc a s.other amount_msat cltv_expiry := by
  simp only [canAddHtlc, inFlightSentBy_mirror h, List.length_map, htlcsum_map_flip,
    h.cfgL, h.cfgR, feePayer_mirror h, ite_eq_other, balance_mirror h,
    reserveFor_mirror h, pending_feerate_mirror h]
  rw [min_comm a.configR.max_accepted_htlcs, min_comm a.configR.max_htlc_value_in_flight_msat]

theorem mirror_recordAdd (h : Mirror a b) (payment_hash amount_msat cltv_expiry : Nat) :
    Mirror (recordAdd a .LOCAL payment_hash amount_msat cltv_expiry).2
           (recordAdd b .REMOTE payment_hash amount_msat cltv_expiry).2 := by
  have hctnL : b.configL.ctn = a.configR.ctn := congrArg ChannelConfig.ctn h.cfgL
  have hctnR : b.configR.ctn = a.configL.ctn := congrArg ChannelConfig.ctn h.cfgR
  constructor
  · exact h.cap
  · exact h.init
  · exact h.base
  · exact h.cfgL
  · simp only [recordAdd, Channel.configOf]
    rw [h.cfgR]
  · simp only [recordAdd, Channel.configOf, Channel.ctnOf]
    rw [h.log, h.cfgR, List.map_append, hctnL]
    rfl
  · exact h.fees

theorem mirror_addPair (h : Mirror a b) (payment_hash amount_msat cltv_expiry : Nat) :
    Mirror (match add_htlc a payment_hash amount_msat cltv_expiry with
            | .ok r => r.2
            | .error _ => a)
           (match receive_htlc b payment_hash amount_msat cltv_expiry with
            | .ok r => r.2
            | .error _ => b) := by
  have hmr : canAddHtlc b .REMOTE amount_msat cltv_expiry
      = canAddHtlc a .LOCAL amount_msat cltv_expiry :=
    canAddHtlc_mirror h .REMOTE amount_msat cltv_expiry
  unfold add_htlc receive_htlc
  rw [hmr]
  cases hc : canAddHtlc a .LOCAL amount_msat cltv_expiry
  · rw [if_neg Bool.false_ne_true, if_neg Bool.false_ne_true]
    exact h
  · rw [if_pos rfl, if_pos rfl]
    exact mirror_recordAdd h payment_hash amount_msat cltv_expiry

theorem any_congr_general {A : Type} (p q : A → Bool) (l : List A)
    (h : ∀ x ∈ l, p x = q x) : l.any p = l.any q := by
  induction l with
  | nil => rfl
  | cons x xs ih =>
      simp only [List.any_cons, h x (List.mem_cons_self x xs)]
      rw [ih (fun y hy => h y (List.mem_cons_of_mem x hy))]

theorem settleCond_flip (prop : HTLCOwner) (htlc_id preimage : Nat) (e : HtlcEntry) :
    ((flipEntry e).proposer = prop && (flipEntry e).htlc.htlc_id = htlc_id
        && (flipEntry e).res.isNone
        && (flipEntry e).htlc.payment_hash = sha256Nat preimage)
      = (e.proposer = prop.other && e.htlc.htlc_id = htlc_id && e.res.isNone
          && e.htlc.payment_hash = sha256Nat preimage) := by
  rcases e with ⟨q, hh, sl, sr, r⟩
  cases q <;> cases prop <;> cases r <;> rfl

theorem preimageMatches_mirror (h : Mirror a b) (prop : HTLCOwner)
    (htlc_id preimage : Nat) :
    preimageMatches b prop htlc_id preimage
      = preimageMatches a prop.other htlc_id preimage := by
  unfold preimageMatches
  rw [h.log, any_map_general]
  exact any_congr_general _ _ _ (fun e _ => settleCond_flip prop htlc_id preimage e)

theorem openCond_flip (prop : HTLCOwner) (htlc_id : Nat) (e : HtlcEntry) :
    ((flipEntry e).proposer = prop && (flipEntry e).htlc.htlc_id = htlc_id
        && (flipEntry e).res.isNone)
      = (e.proposer = prop.other && e.htlc.htlc_id = htlc_id && e.res.isNone) := by
  rcases e with ⟨q, hh, sl, sr, r⟩
  cases q <;> cases prop <;> cases r <;> rfl

theorem hasOpenHtlc_mirror (h : Mirror a b) (prop : HTLCOwner) (htlc_id : Nat) :
    hasOpenHtlc b prop htlc_id = hasOpenHtlc a prop.other htlc_id := by
  unfold hasOpenHtlc
  rw [h.log, any_map_general]
  exact any_congr_general _ _ _ (fun e _ => openCond_flip prop htlc_id e)

theorem mirror_recordRes (h : Mirror a b) (prop : HTLCOwner) (htlc_id : Nat)
    (kind : ResKind) (preimage : Nat) :
    Mirror (recordRes a prop htlc_id kind preimage)
           (recordRes b prop.other htlc_id kind preimage) := by
  have hctnL : b.configL.ctn = a.configR.ctn := congrArg ChannelConfig.ctn h.cfgL
  have hctnR : b.configR.ctn = a.configL.ctn := congrArg ChannelConfig.ctn h.cfgR
  constructor
  · exact h.cap
  · exact h.init
  · exact h.base
  · exact h.cfgL
  · exact h.cfgR
  · simp only [recordRes, Channel.ctnOf, Channel.configOf]
    rw [h.log, List.map_map, List.map_map]
    apply List.map_congr_left
    intro e _
    simp only [Function.comp]
    rw [openCond_flip prop.other htlc_id e, htlcOwner_other_other2, hctnL, hctnR]
    cases hc : (decide (e.proposer = prop) && decide (e.htlc.htlc_id = htlc_id)
        && e.res.isNone)
    · rw [if_neg Bool.false_ne_true, if_neg Bool.false_ne_true]
    · rw [if_pos rfl, if_pos rfl]
      rcases e with ⟨q, hh, sl, sr, r⟩
      rfl
  · exact h.fees

theorem mirror_settlePair (h : Mirror a b) (preimage htlc_id : Nat) :
    Mirror (match settle_htlc a preimage htlc_id with
            | .ok c => c
            | .error _ => a)
           (match receive_htlc_settle b preimage htlc_id with
            | .ok c => c
            | .error _ => b) := by
  have hpm : preimageMatches b .LOCAL htlc_id preimage
      = preimageMatches a .REMOTE htlc_id preimage :=
    preimageMatches_mirror h .LOCAL htlc_id preimage
  unfold settle_htlc receive_htlc_settle
  rw [hpm]
  cases hc : preimageMatches a .REMOTE htlc_id preimage
  · rw [if_neg Bool.false_ne_true, if_neg Bool.false_ne_true]
    exact h
  · rw [if_pos rfl, if_pos rfl]
    exact mirror_recordRes h .REMOTE htlc_id ResKind.RSettle preimage

theorem mirror_failPair (h : Mirror a b) (htlc_id : Nat) :
    Mirror (match fail_htlc a htlc_id with
            | .ok c => c
            | .error _ => a)
           (match receive_fail_htlc b htlc_id with
            | .ok c => c
            | .error _ => b) := by
  have hop : hasOpenHtlc b .LOCAL htlc_id = hasOpenHtlc a .REMOTE htlc_id :=
    hasOpenHtlc_mirror h .LOCAL htlc_id
  unfold fail_htlc receive_fail_htlc
  rw [hop]
  cases hc : hasOpenHtlc a .REMOTE htlc_id
  · rw [if_neg Bool.false_ne_true, if_neg Bool.false_ne_true]
    exact h
  · rw [if_pos rfl, if_pos rfl]
    exact mirror_recordRes h .REMOTE htlc_id ResKind.RFail 0

theorem mirror_feePair (h : Mirror a b) (rate : Nat) :
    Mirror (match update_fee a rate true with
            | .ok c => c
            | .error _ => a)
           (match update_fee b rate false with
            | .ok c => c
            | .error _ => b) := by
  have hctnL : b.configL.ctn = a.configR.ctn := congrArg ChannelConfig.ctn h.cfgL
  have hbi := h.init
  unfold update_fee
  rw [if_pos rfl, if_neg Bool.false_ne_true]
  cases hi : a.is_initiator <;> rw [hi] at hbi <;> rw [hbi]
  · rw [if_neg Bool.false_ne_true, if_pos (show (!false) = true from rfl)]
    exact h
  · rw [if_pos rfl, if_neg (show ¬((!true) = true) from Bool.false_ne_true)]
    refine ⟨h.cap, rfl, h.base, h.cfgL, h.cfgR, h.log, ?_⟩
    simp only [Channel.ctnOf, Channel.configOf]
    rw [h.fees, List.map_append, hctnL]
    rfl

theorem mirror_step (h : Mirror a b) (op : PairOp) :
    Mirror (applyLeft op a) (applyRight op b) := by
  cases op with
  | addA ph amt cltv => exact mirror_addPair h ph amt cltv
  | addB ph amt cltv => exact (mirror_addPair h.symm ph amt cltv).symm
  | settleA pre i => exact mirror_settlePair h pre i
  | settleB pre i => exact (mirror_settlePair h.symm pre i).symm
  | failA i => exact mirror_failPair h i
  | failB i => exact (mirror_failPair h.symm i).symm
  | feeOp rate => exact mirror_feePair h rate

theorem mirror_runPairs (ops : List PairOp) (a b : Channel) (h : Mirror a b) :
    Mirror (runPairs ops (a, b)).1 (runPairs ops (a, b)).2 := by
  induction ops generalizing a b with
  | nil => exact h
  | cons op ops ih => exact ih (applyLeft op a) (applyRight op b) (mirror_step h op)

theorem mirror_mkChans (p : ChanParams) : Mirror (mkChanA p) (mkChanB p) := by
  constructor <;> rfl

/-- C2: for every sequence of matching operation pairs on two freshly
created mirrored channels, A's view of the remote pending commitment equals
B's view of its local pending commitment, output for output. -/
theorem c2_pending_commitment_symmetry (p : ChanParams) (ops : List PairOp) :
    (pending_commitment (runPairs ops (mkChanA p, mkChanB p)).1 .REMOTE).outputs
      = (pending_commitment (runPairs ops (mkChanA p, mkChanB p)).2 .LOCAL).outputs := by
  have h := mirror_runPairs ops (mkChanA p) (mkChanB p) (mirror_mkChans p)
  unfold pending_commitment
  rw [ctxFor_mirror h .LOCAL, ctnOf_mirror h .LOCAL]
  rfl

/-- Witness for C9: on Bob's pending local commitment of the dust scenario,
the whole 4478-sat dust HTLC goes to the fee on top of the 4344-sat static
fee (`calc_static_fee(0)`), exactly as `TestDust.test_DustLimit` asserts via
`pending_local_fee`. -/
theorem c9_commitment_fee_and_dust_witness :
    s2Bob.capacity_sat
        = ((ctxFor s2Bob .LOCAL 2).outputs.map TxOutput.value).sum
            + ctxFee s2Bob .LOCAL 2
            + ((ctxDustHtlcs s2Bob .LOCAL 2).map (fun e => e.htlc.amount_msat / 1000)).sum
            + (if (s2Bob.configOf .LOCAL).dust_limit_sat ≤ toLocalSat s2Bob .LOCAL 2 then 0
               else toLocalSat s2Bob .LOCAL 2)
            + (if (s2Bob.configOf .LOCAL).dust_limit_sat ≤ toRemoteSat s2Bob .LOCAL 2 then 0
               else toRemoteSat s2Bob .LOCAL 2)
      ∧ ctxFee s2Bob .LOCAL 2 = 4344
      ∧ ((ctxDustHtlcs s2Bob .LOCAL 2).map (fun e => e.htlc.amount_msat / 1000)).sum = 4478
      ∧ pending_local_fee s2Bob = 4344 + 4478 := by
  refine ⟨?_, by decide, by decide, by decide⟩
  exact (c9_commitment_fee_and_dust s2Bob .LOCAL 2 (by decide) (by decide) (by decide)
    (by decide) (fun p => by cases p <;> decide) (fun p => by cases p <;> decide)).2.2
